import Mathlib

/-!
A verification development for the `quiche` update engine
(`src/quiche/src/lib.rs` and its `io`/`net` helper modules).

The Rust sources are shallowly embedded: pure helpers become Lean
functions, filesystem and network effects are passed in explicitly as
oracle values (the outcome each primitive would produce), and the
functions additionally return the list of primitive operations they
performed, so ordering and frame properties can be stated.
-/

/- ## SHA-256 (model of the `sha2` crate as used by `io/hash.rs`)

Bytes are `Nat` values below 256; words are `Nat` values below 2^32 and
all word arithmetic is reduced modulo 2^32.
-/

/-- 2^32, the word modulus of SHA-256. -/
def w32 : Nat := 4294967296

/-- Right rotation of a 32-bit word. -/
def rotWord (n x : Nat) : Nat := ((x >>> n) ||| (x <<< (32 - n))) % w32

/-- Bitwise complement of a 32-bit word. -/
def not32 (x : Nat) : Nat := 4294967295 ^^^ x

/-- SHA-256 small sigma 0. -/
def schedSigma0 (x : Nat) : Nat := rotWord 7 x ^^^ rotWord 18 x ^^^ (x >>> 3)

/-- SHA-256 small sigma 1. -/
def schedSigma1 (x : Nat) : Nat := rotWord 17 x ^^^ rotWord 19 x ^^^ (x >>> 10)

/-- SHA-256 big sigma 0. -/
def roundSigma0 (x : Nat) : Nat := rotWord 2 x ^^^ rotWord 13 x ^^^ rotWord 22 x

/-- SHA-256 big sigma 1. -/
def roundSigma1 (x : Nat) : Nat := rotWord 6 x ^^^ rotWord 11 x ^^^ rotWord 25 x

/-- SHA-256 choice function. -/
def chooseFn (x y z : Nat) : Nat := (x &&& y) ^^^ (not32 x &&& z)

/-- SHA-256 majority function. -/
def majFn (x y z : Nat) : Nat := (x &&& y) ^^^ (x &&& z) ^^^ (y &&& z)

/-- The 64 SHA-256 round constants (FIPS 180-4, written in decimal). -/
def K256 : List Nat :=
  [1116352408, 1899447441, 3049323471, 3921009573, 961987163,
   1508970993, 2453635748, 2870763221, 3624381080, 310598401,
   607225278, 1426881987, 1925078388, 2162078206, 2614888103,
   3248222580, 3835390401, 4022224774, 264347078, 604807628,
   770255983, 1249150122, 1555081692, 1996064986, 2554220882,
   2821834349, 2952996808, 3210313671, 3336571891, 3584528711,
   113926993, 338241895, 666307205, 773529912, 1294757372,
   1396182291, 1695183700, 1986661051, 2177026350, 2456956037,
   2730485921, 2820302411, 3259730800, 3345764771, 3516065817,
   3600352804, 4094571909, 275423344, 430227734, 506948616,
   659060556, 883997877, 958139571, 1322822218, 1537002063,
   1747873779, 1955562222, 2024104815, 2227730452, 2361852424,
   2428436474, 2756734187, 3204031479, 3329325298]

/-- Working state of the SHA-256 compression function: eight 32-bit words. -/
structure H8 where
  a : Nat
  b : Nat
  c : Nat
  d : Nat
  e : Nat
  f : Nat
  g : Nat
  h : Nat
deriving Repr, DecidableEq

/-- The SHA-256 initial hash value (in decimal). -/
def sha256Init : H8 :=
  ⟨1779033703, 3144134277, 1013904242, 2773480762,
   1359893119, 2600822924, 528734635, 1541459225⟩

/-- One SHA-256 round on the working state with round constant `k` and schedule word `w`. -/
def sha256Round (st : H8) (k w : Nat) : H8 :=
  let t1 := (st.h + roundSigma1 st.e + chooseFn st.e st.f st.g + k + w) % w32
  let t2 := (roundSigma0 st.a + majFn st.a st.b st.c) % w32
  ⟨(t1 + t2) % w32, st.a, st.b, st.c, (st.d + t1) % w32, st.e, st.f, st.g⟩

/-- Assemble big-endian 32-bit words from a list of bytes (four bytes per word). -/
def bytesToWords : List Nat → List Nat
  | b0 :: b1 :: b2 :: b3 :: rest =>
      (b0 * 16777216 + b1 * 65536 + b2 * 256 + b3) :: bytesToWords rest
  | _ => []

/-- Extend the 16 words of one block to the 64-word message schedule. -/
def extendW (w16 : List Nat) : List Nat :=
  let arr := (List.range 48).foldl
    (fun (arr : Array Nat) _ =>
      let t := arr.size
      arr.push ((arr.get! (t - 16) + schedSigma0 (arr.get! (t - 15)) +
                 arr.get! (t - 7) + schedSigma1 (arr.get! (t - 2))) % w32))
    w16.toArray
  arr.toList

/-- Process one 64-byte block, folding the compression rounds and adding
the result back onto the chaining value. -/
def sha256Block (st : H8) (block : List Nat) : H8 :=
  let ws := extendW (bytesToWords block)
  let r := (K256.zip ws).foldl (fun s kw => sha256Round s kw.1 kw.2) st
  ⟨(st.a + r.a) % w32, (st.b + r.b) % w32, (st.c + r.c) % w32, (st.d + r.d) % w32,
   (st.e + r.e) % w32, (st.f + r.f) % w32, (st.g + r.g) % w32, (st.h + r.h) % w32⟩

/-- The eight big-endian length bytes of the bit length of a message of `len` bytes. -/
def lenBytes (len : Nat) : List Nat :=
  let bits := 8 * len
  [bits >>> 56 % 256, bits >>> 48 % 256, bits >>> 40 % 256, bits >>> 32 % 256,
   bits >>> 24 % 256, bits >>> 16 % 256, bits >>> 8 % 256, bits % 256]

/-- SHA-256 padding: append `0x80`, zero bytes up to 56 mod 64, then the bit length. -/
def padMessage (msg : List Nat) : List Nat :=
  let z := (119 - msg.length % 64) % 64
  msg ++ [128] ++ List.replicate z 0 ++ lenBytes msg.length

/-- Split a byte list into `n` consecutive 64-byte blocks. -/
def chunks64 : Nat → List Nat → List (List Nat)
  | 0, _ => []
  | n + 1, l => l.take 64 :: chunks64 n (l.drop 64)

/-- Big-endian bytes of one 32-bit word. -/
def wordBytes (w : Nat) : List Nat :=
  [w >>> 24 % 256, w >>> 16 % 256, w >>> 8 % 256, w % 256]

/-- The 32 digest bytes of the SHA-256 hash of a byte list. -/
def sha256Bytes (msg : List Nat) : List Nat :=
  let padded := padMessage msg
  let final := (chunks64 (padded.length / 64) padded).foldl sha256Block sha256Init
  wordBytes final.a ++ wordBytes final.b ++ wordBytes final.c ++ wordBytes final.d ++
  wordBytes final.e ++ wordBytes final.f ++ wordBytes final.g ++ wordBytes final.h

/-- One uppercase hexadecimal digit. -/
def hexChar (n : Nat) : Char :=
  if n < 10 then Char.ofNat (48 + n) else Char.ofNat (55 + n)

/-- A byte as two uppercase hexadecimal digits. -/
def byteToHex (b : Nat) : String :=
  String.mk [hexChar (b / 16), hexChar (b % 16)]

/-- Uppercase hexadecimal rendering of a byte list; models Rust's
`format of  X` on the digest array (two digits per byte, no separators). -/
def toUpperHex (bytes : List Nat) : String :=
  String.join (bytes.map byteToHex)

/-- Known-answer test: the SHA-256 digest of the empty message. -/
theorem sha256_empty_message_kat :
    toUpperHex (sha256Bytes []) =
      "E3B0C44298FC1C149AFBF4C8996FB92427AE41E4649B934CA495991B7852B855" := by
  decide

/- ## `io/hash.rs` — `sha_256`

The file on disk is modelled as `Option (List ChunkRead)`: `none` when
`File::open` fails, otherwise the sequence of reads `io::copy` performs,
each either a chunk of bytes or a read error.  `io::copy` feeds chunks
into the hasher until the first read error; `unwrap_or(0)` in the source
discards that error, so hashing continues from whatever was consumed.
-/

/-- One read performed by `io::copy`: a successfully read chunk of bytes,
or an I/O read error with its message. -/
inductive ChunkRead where
  | data (bytes : List Nat)
  | readErr (e : String)
deriving Repr, DecidableEq

/-- The bytes of all chunks strictly before the first read error. -/
def bytesBeforeError : List ChunkRead → List Nat
  | [] => []
  | .data bs :: rest => bs ++ bytesBeforeError rest
  | .readErr _ :: _ => []

/-- Model of `io::copy(&mut file, &mut sha256)`: returns the bytes fed to
the hasher together with the copy result (byte count, or the read error). -/
def ioCopy : List ChunkRead → List Nat × Except String Nat
  | [] => ([], .ok 0)
  | .data bs :: rest =>
      (bs ++ (ioCopy rest).1,
       match (ioCopy rest).2 with
       | .ok n => .ok (bs.length + n)
       | .error e => .error e)
  | .readErr e :: _ => ([], .error e)

/-- Embeds `sha_256` from `io/hash.rs`: `None` when the file cannot be
opened; otherwise the uppercase hex digest of whatever `io::copy` fed to
the hasher (`unwrap_or(0)` swallows a mid-stream read error). -/
def sha_256 (file : Option (List ChunkRead)) : Option String :=
  match file with
  | none => none
  | some chunks =>
      let (fed, _copied) := ioCopy chunks
      some (toUpperHex (sha256Bytes fed))

/- ## `io/disk.rs` — directory utilities

A directory listing is `Option (List String)`: `none` models
`get_dir_files` returning `Err` (in particular when the directory does
not exist), `some l` the list of relative file paths it returns.
-/

/-- Embeds `dir_contains_all_files` from `io/disk.rs`: true exactly when
the listing succeeded and every required file appears in it. -/
def dir_contains_all_files (dir : Option (List String)) (files : List String) : Bool :=
  match dir with
  | some dir_files => files.all (fun file => dir_files.contains file)
  | none => false

/-- A file seen by the `WalkDir` traversal in `delete_dir_contents`:
the directory components it sits under (relative to the walk root) and
its file name.  `get_filename` in the source returns the `name` field. -/
structure WalkFile where
  dirs : List String
  name : String
deriving Repr, DecidableEq

/-- The directory tree `delete_dir_contents` operates on: its files, and
the directories of the walk (component lists relative to the root, in
the pre-order the walk yields them). -/
structure DirState where
  files : List WalkFile
  dirs : List (List String)
deriving Repr, DecidableEq

/-- `child` is an immediate subdirectory of `parent`. -/
def immediateChildDir (parent child : List String) : Bool :=
  child.length == parent.length + 1 && child.take parent.length == parent

/-- `read_dir(d).next().is_none()` after the file-deletion pass: directory
`d` has no remaining file and no immediate subdirectory.  (When the
second pass of `delete_dir_contents` visits `d`, the pre-order walk has
not yet removed any of `d`'s subdirectories, so emptiness is judged
against the full original directory set.) -/
def dirEmptyAfter (files : List WalkFile) (dirs : List (List String)) (d : List String) : Bool :=
  files.all (fun f => !(f.dirs == d)) && dirs.all (fun d2 => !(immediateChildDir d d2))

/-- Embeds `delete_dir_contents` from `io/disk.rs`: first pass removes
every file whose file name is not in `ignored`; second pass removes each
directory that is empty when visited. -/
def delete_dir_contents (s : DirState) (ignored : List String) : DirState :=
  let remaining := s.files.filter (fun f => ignored.contains f.name)
  { files := remaining,
    dirs := s.dirs.filter (fun d => !(dirEmptyAfter remaining s.dirs d)) }

/- ## `lib.rs` — data model of the `updater` module -/

/-- `UpdateType` from `lib.rs`: a full install or a patch over an
existing installation. -/
inductive UpdateType where
  | Install
  | Patch
deriving Repr, DecidableEq

instance : Inhabited UpdateType := ⟨UpdateType.Install⟩

/-- `ReleaseBranch` from `lib.rs`. -/
inductive ReleaseBranch where
  | Stable
  | Beta
  | Nightly
deriving Repr, DecidableEq

instance : Inhabited ReleaseBranch := ⟨ReleaseBranch.Stable⟩

/-- `RegistryHandle` values used by `InstallInfo` (from `os/windows.rs`). -/
inductive RegistryHandle where
  | CurrentUser
  | LocalMachine
deriving Repr, DecidableEq

instance : Inhabited RegistryHandle := ⟨RegistryHandle.CurrentUser⟩

/-- `Installer` from `lib.rs`: URL and hash of the full installer. -/
structure Installer where
  url : String
  hash : String
deriving Repr, DecidableEq

/-- `Package` from `lib.rs`: URL, hash and file list of the update package. -/
structure Package where
  url : String
  hash : String
  files : List String
deriving Repr, DecidableEq

/-- `Manifest` from `lib.rs`. -/
structure Manifest where
  version : String
  package : Package
  installer : Installer
deriving Repr, DecidableEq

/-- `Branch` from `lib.rs`. -/
structure Branch where
  version : String
  manifest_url : String
deriving Repr, DecidableEq

/-- `Releases` from `lib.rs`. -/
structure Releases where
  stable : Branch
  beta : Branch
  nightly : Branch
deriving Repr, DecidableEq

/-- `InstallInfo` from `lib.rs`: the uninstall-registry facts about the
current installation. -/
structure InstallInfo where
  name : String
  version : String
  path : String
  branch : ReleaseBranch
  registry_key : String
  registry_handle : RegistryHandle
  id : String
deriving Repr, DecidableEq

instance : Inhabited InstallInfo :=
  ⟨⟨"", "", "", ReleaseBranch.Stable, "", RegistryHandle.CurrentUser, ""⟩⟩

/-- `ActiveUpdate` from `lib.rs`: the working state of one update run. -/
structure ActiveUpdate where
  update_type : UpdateType
  manifest : Manifest
  temp_name : String
  install_info : InstallInfo
deriving Repr, DecidableEq

/-- `ActiveUpdate::get_package_files`. -/
def ActiveUpdate.get_package_files (u : ActiveUpdate) : List String :=
  u.manifest.package.files

/-- `ActiveUpdate::get_temp_name`. -/
def ActiveUpdate.get_temp_name (u : ActiveUpdate) : String :=
  u.temp_name

/-- `ActiveUpdate::get_version`. -/
def ActiveUpdate.get_version (u : ActiveUpdate) : String :=
  u.manifest.version

/-- `ActiveUpdate::get_ext`: `.exe` for installs, `.zip` for patches. -/
def ActiveUpdate.get_ext (u : ActiveUpdate) : String :=
  match u.update_type with
  | .Install => ".exe"
  | .Patch => ".zip"

/-- `ActiveUpdate::get_url`. -/
def ActiveUpdate.get_url (u : ActiveUpdate) : String :=
  match u.update_type with
  | .Install => u.manifest.installer.url
  | .Patch => u.manifest.package.url

/-- `ActiveUpdate::get_hash`: installer hash for installs, package hash
for patches. -/
def ActiveUpdate.get_hash (u : ActiveUpdate) : String :=
  match u.update_type with
  | .Install => u.manifest.installer.hash
  | .Patch => u.manifest.package.hash

/-- `ActiveUpdate::set_temp_file`: derive the temp file name from the
expected hash and the type-determined extension. -/
def ActiveUpdate.set_temp_file (u : ActiveUpdate) : ActiveUpdate :=
  { u with temp_name := u.get_hash ++ u.get_ext }

/-- `validate_files` from `lib.rs`, over the listing of the install path. -/
def validate_files (dirListing : Option (List String)) (target_files : List String) : Bool :=
  dir_contains_all_files dirListing target_files

/-- `ActiveUpdate::validate` from `lib.rs`: false ("needs update") when a
manifest file is missing from the install path; otherwise compares the
installed and manifest versions.  `fs` maps a path to the result of
listing it (`get_dir_files`). -/
def ActiveUpdate.validate (u : ActiveUpdate) (fs : String → Option (List String)) : Bool :=
  if !(validate_files (fs u.install_info.path) u.get_package_files) then false
  else u.install_info.version == u.manifest.version

/-- The constructors of `BootstrapError` (from `etc/constants.rs`) that the
update engine produces. -/
inductive BootstrapError where
  | HttpFailed (s : String)
  | SignatureMismatch
  | RemoteFileMissing (s : String)
  | RemoteFileEmpty (s : String)
  | InstallationFailed (s : String)
  | RequestError (s : String)
  | IOError (s : String)
  | ReleaseLookupFailed (s : String)
deriving Repr, DecidableEq

/-- The `Display` rendering of `BootstrapError` (from `etc/constants.rs`),
for the constructors modelled here. -/
def BootstrapError.toString : BootstrapError → String
  | .HttpFailed s => s
  | .SignatureMismatch =>
      "We were unable to validate the updates integrity. Please exit and try again."
  | .RemoteFileMissing s =>
      "The remote file requested (" ++ s ++ ") is not present at the address provided."
  | .RemoteFileEmpty s =>
      "The remote file requested (" ++ s ++ ") is has a zero byte length."
  | .InstallationFailed s =>
      "An error occured installing the latest update: " ++ s
  | .RequestError s =>
      "An unknown network issue was encountered accessing " ++ s
  | .IOError s =>
      "An unknown issue was encountered: " ++ s
  | .ReleaseLookupFailed s =>
      "Looks like something went wrong. We were unable to determine the latest Rainway release. Please exit and try again. \n\n " ++ s

/-- Embeds `updater::verify` from `lib.rs`: hash the downloaded temp file
(modelled by `tempFile`, see `sha_256`) and compare the digest with the
manifest hash for the active update type by exact string equality. -/
def verify (tempFile : Option (List ChunkRead)) (update : ActiveUpdate) : Except String String :=
  match sha_256 tempFile with
  | some local_hash =>
      if local_hash == update.get_hash then .ok ""
      else .error BootstrapError.SignatureMismatch.toString
  | none => .error BootstrapError.SignatureMismatch.toString

/- ## `lib.rs` — `updater::apply`

The filesystem and process primitives `apply` calls are supplied as an
oracle (`ApplyEnv`): each field is the outcome the primitive would
produce if invoked.  `apply` returns the source function's result
together with the trace of primitive operations it actually performed,
in order, so ordering and frame properties can be stated.
-/

/-- The directories `apply` operates on. -/
inductive PathId where
  | install
  | backup
  | staging
  | download
deriving Repr, DecidableEq

/-- A primitive operation performed by `apply`, with the paths (and where
relevant the exclusion list) it was invoked on. -/
inductive Op where
  | removeDirAll (p : PathId)
  | copyDir (src dst : PathId) (ignored : List String)
  | unzipTo (src dst : PathId)
  | deleteDirContents (p : PathId) (ignored : List String)
  | moveDir (src dst : PathId) (ignored : List String)
  | unblockPath (p : PathId)
  | takeOwnership (p : PathId)
  | grantPermissions (p : PathId)
  | updateDisplayVersion
  | postUpdate
deriving Repr, DecidableEq

/-- Outcomes of the primitives `apply` may invoke, plus the ambient data
(temp directory, current executable lookup) it reads. -/
structure ApplyEnv where
  tempDir : String
  currentExe : Except String String
  stagingExists : Bool
  stagingClean : Except String Unit
  backupExists : Bool
  backupClean : Except String Unit
  copyDirResult : Except String Unit
  unzipResult : Except String Unit
  deleteResult : Except String Unit
  commitMove : Except String Unit
  rollbackMove : Except String Unit
  unblockOk : Bool
  ownershipOk : Bool
  permissionsOk : Bool
deriving Repr

/-- `PathBuf::push` on Windows. -/
def pathPush (dir file : String) : String := dir ++ "\\" ++ file

/-- The exclusion list `apply` builds from the current executable's file
name: the executable, its log file, and its `_old`/`_new` siblings. -/
def ignoredFilesFor (exe : String) : List String :=
  [exe, exe.replace ".exe" ".log", exe ++ "_old", exe ++ "_new"]

namespace updater

/-- Embeds `updater::apply` from `lib.rs` (lines 737-884).  Mirrors the
source's control flow: clean stale staging/backup, back up the install
path, extract the package to staging, clear the install path (rolling
back on failure), move staging into place (rolling back on failure),
then best-effort post-apply steps.  Returns the source's
`Result<String, String>` together with the operation trace. -/
def apply (env : ApplyEnv) (update : ActiveUpdate) : Except String String × List Op :=
  let update_staging_path := pathPush env.tempDir ("Rainway_Stage_" ++ update.get_version)
  match env.currentExe with
  | .error e =>
      (.error (BootstrapError.InstallationFailed
        ("Unable to locate current exe: " ++ e)).toString, [])
  | .ok current_exe =>
    let ignored_files := ignoredFilesFor current_exe
    let stagingOps : List Op := if env.stagingExists then [.removeDirAll .staging] else []
    match env.stagingExists, env.stagingClean with
    | true, .error e =>
        (.error (BootstrapError.InstallationFailed
          ("Aborted update due to modification failure on stage " ++
            update_staging_path ++ ": " ++ e)).toString, stagingOps)
    | _, _ =>
    let backup_path := pathPush env.tempDir ("Rainway_Backup_" ++ update.get_version)
    let backupOps : List Op := stagingOps ++ (if env.backupExists then [.removeDirAll .backup] else [])
    match env.backupExists, env.backupClean with
    | true, .error e =>
        (.error (BootstrapError.InstallationFailed
          ("Aborted update due to modification failure on backup " ++
            backup_path ++ ": " ++ e)).toString, backupOps)
    | _, _ =>
    let copyOps := backupOps ++ [Op.copyDir .install .backup ignored_files]
    match env.copyDirResult with
    | .error e =>
        (.error (BootstrapError.InstallationFailed
          ("Unable to backup installation to " ++ backup_path ++ ": " ++ e)).toString, copyOps)
    | .ok _ =>
    let unzipOps := copyOps ++ [Op.unzipTo .download .staging]
    match env.unzipResult with
    | .error e =>
        (.error (BootstrapError.InstallationFailed
          ("Unable to extract update to " ++ update_staging_path ++
            " due to issue: " ++ e)).toString, unzipOps)
    | .ok _ =>
    let deleteOps := unzipOps ++ [Op.deleteDirContents .install ignored_files]
    match env.deleteResult with
    | .error e =>
        (.error (BootstrapError.InstallationFailed
          ("Unable to cleanup current installation located at " ++
            update.install_info.path ++ " due to: " ++ e)).toString,
         deleteOps ++ [Op.moveDir .backup .install ignored_files])
    | .ok _ =>
    let commitOps := deleteOps ++ [Op.moveDir .staging .install ignored_files]
    match env.commitMove with
    | .error e =>
        (.error (BootstrapError.InstallationFailed
          ("Failed to apply update to " ++ update.install_info.path ++
            " from " ++ update_staging_path ++ ": " ++ e)).toString,
         commitOps ++ [Op.moveDir .backup .install ignored_files])
    | .ok _ =>
        (.ok "Rainway updated!",
         commitOps ++ [Op.unblockPath .install, Op.takeOwnership .install,
                       Op.grantPermissions .install, Op.updateDisplayVersion, Op.postUpdate])

end updater

/- ## `lib.rs` — the `ActiveUpdate` operations that write fields

Besides `set_temp_file`, the engine writes `ActiveUpdate` fields only in
`get_manifest` (stores the fetched manifest), `store_install_info`
(stores the registry lookup) and `store_installer_id` (stores the id
scraped from the running executable).  The outcome of the external
fetch/lookup is passed in as an argument.
-/

/-- The `Debug`/`Display` rendering of a `ReleaseBranch`. -/
def ReleaseBranch.toStr : ReleaseBranch → String
  | .Stable => "Stable"
  | .Beta => "Beta"
  | .Nightly => "Nightly"

/-- The branch selection in `ActiveUpdate::get_manifest`. -/
def Releases.manifest_url_of (r : Releases) : ReleaseBranch → String
  | .Stable => r.stable.manifest_url
  | .Beta => r.beta.manifest_url
  | .Nightly => r.nightly.manifest_url

/-- Embeds `ActiveUpdate::get_manifest`: pick the branch's manifest URL
from the release index, fail if it is empty, otherwise store the fetched
manifest (`fetched` is the result `download_toml` would produce). -/
def ActiveUpdate.get_manifest (u : ActiveUpdate) (releases : Releases)
    (branch : ReleaseBranch) (fetched : Except String Manifest) :
    Except BootstrapError ActiveUpdate :=
  if (releases.manifest_url_of branch).isEmpty then
    .error (.ReleaseLookupFailed ("Manifest URL missing the " ++ branch.toStr ++ " branch."))
  else
    match fetched with
    | .ok m => .ok { u with manifest := m }
    | .error e =>
        .error (.ReleaseLookupFailed ("Failed to fetch branch " ++ branch.toStr ++ ". " ++ e))

/-- Embeds `ActiveUpdate::store_install_info`: store the registry lookup
result (`fetched` is what `get_install_info` would return). -/
def ActiveUpdate.store_install_info (u : ActiveUpdate)
    (fetched : Except BootstrapError InstallInfo) : Except BootstrapError ActiveUpdate :=
  match fetched with
  | .ok install_info => .ok { u with install_info := install_info }
  | .error e => .error e

/-- Embeds `ActiveUpdate::store_installer_id`: when an id was found in
the running executable, store it in `install_info.id`. -/
def ActiveUpdate.store_installer_id (u : ActiveUpdate) (found : Option String) : ActiveUpdate :=
  match found with
  | some id => { u with install_info := { u.install_info with id := id } }
  | none => u

/- ## `net/http.rs` — `download_file`

The network and the destination file are supplied as an oracle
(`DownloadEnv`).  The function also returns the trace of external steps
it performed, so "nothing was written before the HEAD checks passed" is
statable.
-/

/-- The response to the HEAD request: its status code and the raw
`Content-Length` header value, when present. -/
structure HeadResponse where
  status : Nat
  contentLength : Option String
deriving Repr, DecidableEq

instance {ε α : Type} [DecidableEq ε] [DecidableEq α] : DecidableEq (Except ε α) := fun a b =>
  match a, b with
  | .ok x, .ok y => decidable_of_iff (x = y) (by simp)
  | .ok _, .error _ => isFalse (by simp)
  | .error _, .ok _ => isFalse (by simp)
  | .error x, .error y => decidable_of_iff (x = y) (by simp)

/-- One iteration of the body-copy loop: a body chunk together with the
result of writing it (`Ok n` = `n` bytes written), or a body read error. -/
inductive ChunkEvent where
  | chunk (writeResult : Except String Nat)
  | chunkErr (e : String)
deriving Repr, DecidableEq

/-- External steps `download_file` can perform. -/
inductive HttpEvent where
  | headReq
  | openFile
  | getReq
  | flush
deriving Repr, DecidableEq

/-- Oracle for one `download_file` run. -/
structure DownloadEnv where
  headRequestBuild : Except String Unit
  headResult : Except String HeadResponse
  openResult : Except String Unit
  getRequestBuild : Except String Unit
  getResult : Except String Unit
  chunks : List ChunkEvent
  flushResult : Except String Unit
deriving Repr

/-- `StatusCode::is_success`: a 2xx status. -/
def is_success (status : Nat) : Bool := 200 ≤ status && status ≤ 299

/-- 2^64, the modulus of the source's `u64` arithmetic. -/
def w64 : Nat := 18446744073709551616

/-- `u64::from_str` on a header value: an optional leading `+`, then at
least one decimal digit; the value must fit in a `u64`, values of 2^64
or more fail with `PosOverflow`.  Anything else fails. -/
def parseU64 (s : String) : Option Nat :=
  let ds := match s.data with
    | '+' :: rest => rest
    | l => l
  if ds.isEmpty then none
  else if ds.all (fun c => '0' ≤ c && c ≤ '9') then
    let v := ds.foldl (fun n c => n * 10 + (c.toNat - 48)) 0
    if v < w64 then some v else none
  else none

/-- The `total_size` computation in `download_file`: read the
`Content-Length` header, parse it, and default to 0 when absent or
unparsable. -/
def total_size_of (r : HeadResponse) : Nat :=
  (r.contentLength.bind parseU64).getD 0

/-- The body-copy loop of `download_file`: propagate a body read error
(as `RequestError`) or a write error (as `IOError`), otherwise accumulate
the number of bytes written into the `u64` counter
`total_downloaded_bytes` (wrapping addition modulo 2^64). -/
def copyLoop : List ChunkEvent → Nat → Except BootstrapError Nat
  | [], total => .ok total
  | .chunk (.ok n) :: rest, total => copyLoop rest ((total + n) % w64)
  | .chunk (.error e) :: _, _ => .error (.IOError e)
  | .chunkErr e :: _, _ => .error (.RequestError e)

/-- The total number of bytes successfully written by the chunk list. -/
def sumWrites : List ChunkEvent → Nat
  | [] => 0
  | .chunk (.ok n) :: rest => n + sumWrites rest
  | .chunk (.error _) :: rest => sumWrites rest
  | .chunkErr _ :: rest => sumWrites rest

/-- Embeds `download_file` from `net/http.rs` (lines 63-141): HEAD the
URL, require a 2xx status (`RemoteFileMissing` otherwise), require a
positive `Content-Length` (`RemoteFileEmpty` otherwise), open the
destination, GET the URL, copy the body counting written bytes, flush,
and report whether the byte count matches `Content-Length`. -/
def download_file (env : DownloadEnv) (url : String) (path : String) :
    Except BootstrapError Bool × List HttpEvent :=
  match env.headRequestBuild with
  | .error e => (.error (.HttpFailed e), [])
  | .ok _ =>
  match env.headResult with
  | .error e => (.error (.HttpFailed e), [.headReq])
  | .ok r =>
    if !(is_success r.status) then
      (.error (.RemoteFileMissing url), [.headReq])
    else
      let total_size := total_size_of r
      if total_size ≤ 0 then
        (.error (.RemoteFileEmpty url), [.headReq])
      else
        match env.openResult with
        | .error e => (.error (.HttpFailed e), [.headReq, .openFile])
        | .ok _ =>
        match env.getRequestBuild with
        | .error e => (.error (.HttpFailed e), [.headReq, .openFile])
        | .ok _ =>
        match env.getResult with
        | .error e => (.error (.HttpFailed e), [.headReq, .openFile, .getReq])
        | .ok _ =>
          match copyLoop env.chunks 0 with
          | .error be => (.error be, [.headReq, .openFile, .getReq])
          | .ok total_downloaded_bytes =>
            match env.flushResult with
            | .error e => (.error (.IOError e), [.headReq, .openFile, .getReq, .flush])
            | .ok _ =>
                (.ok (total_downloaded_bytes == total_size),
                 [.headReq, .openFile, .getReq, .flush])

/- ## Helper lemmas -/

/-- The bytes `ioCopy` feeds to the hasher are exactly the chunk bytes
before the first read error. -/
theorem ioCopy_fst (chunks : List ChunkRead) :
    (ioCopy chunks).1 = bytesBeforeError chunks := by
  induction chunks with
  | nil => rfl
  | cons c rest ih =>
      cases c with
      | data bs => simp [ioCopy, bytesBeforeError, ih]
      | readErr e => rfl

/-- A successful `copyLoop` run accumulates exactly the written bytes,
reduced by the `u64` wrap of the counter. -/
theorem copyLoop_ok_sum (l : List ChunkEvent) :
    ∀ acc t, acc < w64 → copyLoop l acc = .ok t → t = (acc + sumWrites l) % w64 := by
  induction l with
  | nil =>
      intro acc t hlt h
      simp [copyLoop] at h
      simp [sumWrites, ← h, Nat.mod_eq_of_lt hlt]
  | cons c rest ih =>
      intro acc t hlt h
      cases c with
      | chunk w =>
          cases w with
          | ok n =>
              have h2 := ih ((acc + n) % w64) t (Nat.mod_lt _ (by decide))
                (by simpa [copyLoop] using h)
              rw [h2, Nat.mod_add_mod]
              simp [sumWrites, Nat.add_assoc]
          | error e => simp [copyLoop] at h
      | chunkErr e => simp [copyLoop] at h

/-- `copyLoop` only fails with `IOError` (write failure) or
`RequestError` (body read failure). -/
theorem copyLoop_error_shape (l : List ChunkEvent) :
    ∀ acc be, copyLoop l acc = .error be →
      (∃ e, be = .IOError e) ∨ (∃ e, be = .RequestError e) := by
  induction l with
  | nil => intro acc be h; simp [copyLoop] at h
  | cons c rest ih =>
      intro acc be h
      cases c with
      | chunk w =>
          cases w with
          | ok n => exact ih _ _ (by simpa [copyLoop] using h)
          | error e =>
              simp [copyLoop] at h
              exact .inl ⟨e, h.symm⟩
      | chunkErr e =>
          simp [copyLoop] at h
          exact .inr ⟨e, h.symm⟩

/- ## The claims -/

/-- C8: `dir_contains_all_files` is monotone in the directory contents
and antitone in the required set: a true check stays true when extra
files outside the required list are added to the directory, becomes
false when a required file is removed (directory listings are
duplicate-free), and the check is false when the directory does not
exist (listing fails). -/
theorem dir_contains_all_files_monotone (d extra F : List String) (f : String) :
    (dir_contains_all_files (some d) F = true → (∀ x ∈ extra, x ∉ F) →
      dir_contains_all_files (some (d ++ extra)) F = true)
    ∧ (f ∈ F → d.Nodup → dir_contains_all_files (some (d.erase f)) F = false)
    ∧ dir_contains_all_files none F = false := by
  refine ⟨?_, ?_, rfl⟩
  · intro h _
    simp only [dir_contains_all_files, List.all_eq_true, List.elem_iff,
      List.mem_append] at h ⊢
    intro file hf
    exact .inl (h file hf)
  · intro hf hnd
    simp only [dir_contains_all_files, List.all_eq_false, List.elem_iff]
    exact ⟨f, hf, fun hmem => ((hnd.mem_erase_iff.mp hmem).1 rfl)⟩

/-- C8 witness: the three parts at concrete inputs. -/
theorem dir_contains_all_files_monotone_witness :
    dir_contains_all_files (some (["a", "b"] ++ ["c"])) ["a", "b"] = true
    ∧ dir_contains_all_files (some (["a", "b"].erase "a")) ["a", "b"] = false
    ∧ dir_contains_all_files none ["a", "b"] = false :=
  ⟨(dir_contains_all_files_monotone ["a", "b"] ["c"] ["a", "b"] "a").1 (by decide)
      (by decide),
   (dir_contains_all_files_monotone ["a", "b"] ["c"] ["a", "b"] "a").2.1 (by decide)
      (by decide),
   (dir_contains_all_files_monotone ["a", "b"] ["c"] ["a", "b"] "a").2.2⟩

/-- C2: for an `ActiveUpdate` with an existing installation, `validate`
reports "update required" (returns `false`) exactly when a manifest file
is missing from the install path listing or the installed version
differs from the manifest version; the file-presence check is decisive
on its own, so a version match with a missing file still reports update
required. -/
theorem validate_up_to_date_iff (fs : String → Option (List String)) (u : ActiveUpdate) :
    (u.validate fs = false ↔
      (dir_contains_all_files (fs u.install_info.path) u.get_package_files = false ∨
       u.install_info.version ≠ u.manifest.version))
    ∧ (u.install_info.version = u.manifest.version →
        dir_contains_all_files (fs u.install_info.path) u.get_package_files = false →
        u.validate fs = false) := by
  constructor
  · cases h : dir_contains_all_files (fs u.install_info.path) u.get_package_files with
    | false => simp [ActiveUpdate.validate, validate_files, h]
    | true =>
        simp [ActiveUpdate.validate, validate_files, h]
  · intro _ h
    simp [ActiveUpdate.validate, validate_files, h]

/-- C2 witness: installed version equals the manifest version but a
manifest file is missing on disk, and `validate` still reports that an
update is required. -/
theorem validate_up_to_date_iff_witness :
    ActiveUpdate.validate
      ⟨UpdateType.Patch,
       ⟨"1.2.3", ⟨"u", "h", ["app.dll"]⟩, ⟨"iu", "ih"⟩⟩, "",
       ⟨"Rainway", "1.2.3", "C:\\app", ReleaseBranch.Stable, "k",
        RegistryHandle.CurrentUser, ""⟩⟩
      (fun _ => some []) = false :=
  (validate_up_to_date_iff (fun _ => some []) _).2 rfl (by decide)

/-- C7: `delete_dir_contents` deletes exactly the files whose file name
is not in the exclusion list (excluded files survive unchanged, nothing
new appears), removes exactly the directories that are empty once those
files are gone (no remaining file directly inside, no immediate
subdirectory), and on a directory holding `keep.txt` and `drop.txt` with
exclusion list `["keep.txt"]` it leaves exactly `keep.txt`. -/
theorem delete_dir_contents_exclusion (s : DirState) (ignored : List String) :
    (∀ f, f ∈ (delete_dir_contents s ignored).files → ignored.contains f.name = true)
    ∧ (∀ f, f ∈ s.files → ignored.contains f.name = true →
        f ∈ (delete_dir_contents s ignored).files)
    ∧ (∀ f, f ∈ (delete_dir_contents s ignored).files → f ∈ s.files)
    ∧ (∀ d, d ∈ (delete_dir_contents s ignored).dirs ↔
        d ∈ s.dirs ∧
          dirEmptyAfter (delete_dir_contents s ignored).files s.dirs d = false)
    ∧ delete_dir_contents ⟨[⟨[], "keep.txt"⟩, ⟨[], "drop.txt"⟩], [[]]⟩ ["keep.txt"]
        = ⟨[⟨[], "keep.txt"⟩], [[]]⟩ := by
  refine ⟨?_, ?_, ?_, ?_, by decide⟩
  · intro f hf
    exact (List.mem_filter.mp hf).2
  · intro f hf hi
    exact List.mem_filter.mpr ⟨hf, hi⟩
  · intro f hf
    exact (List.mem_filter.mp hf).1
  · intro d
    have hfiles : (delete_dir_contents s ignored).files
        = s.files.filter (fun f => ignored.contains f.name) := rfl
    rw [hfiles]
    constructor
    · intro hd
      have h := List.mem_filter.mp hd
      exact ⟨h.1, (Bool.not_eq_true' _).mp h.2⟩
    · intro hd
      exact List.mem_filter.mpr ⟨hd.1, (Bool.not_eq_true' _).mpr hd.2⟩

/-- C7 witness: the quantified parts evaluated on the `keep.txt` /
`drop.txt` directory. -/
theorem delete_dir_contents_exclusion_witness :
    (⟨[], "keep.txt"⟩ : WalkFile) ∈
      (delete_dir_contents ⟨[⟨[], "keep.txt"⟩, ⟨[], "drop.txt"⟩], [[]]⟩ ["keep.txt"]).files
    ∧ (["keep.txt"] : List String).contains (WalkFile.name ⟨[], "drop.txt"⟩) ≠ true :=
  ⟨(delete_dir_contents_exclusion ⟨[⟨[], "keep.txt"⟩, ⟨[], "drop.txt"⟩], [[]]⟩
      ["keep.txt"]).2.1 ⟨[], "keep.txt"⟩ (by decide) (by decide),
   by decide⟩

/-- C10: `sha_256` returns `None` exactly when opening the file fails; a
file that opens always yields `Some`, and when reading fails partway the
returned string is the uppercase hex SHA-256 digest of only the bytes
read before the failure (the digest of the empty stream when nothing was
read). -/
theorem sha_256_partial_read_digest (f : Option (List ChunkRead)) :
    (sha_256 f = none ↔ f = none)
    ∧ (∀ chunks, f = some chunks →
        sha_256 f = some (toUpperHex (sha256Bytes (bytesBeforeError chunks)))) := by
  constructor
  · cases f with
    | none => simp [sha_256]
    | some chunks => simp [sha_256]
  · intro chunks hf
    subst hf
    simp [sha_256, ioCopy_fst]

/-- C10 witness: a file that opens but whose read fails after one byte
hashes exactly that byte; a file that fails to open hashes to `None`. -/
theorem sha_256_partial_read_digest_witness :
    sha_256 (some [ChunkRead.data [0], ChunkRead.readErr "bad sector", ChunkRead.data [1]])
      = some (toUpperHex (sha256Bytes [0]))
    ∧ sha_256 none = none := by
  constructor
  · have h := (sha_256_partial_read_digest
      (some [ChunkRead.data [0], ChunkRead.readErr "bad sector", ChunkRead.data [1]])).2
        _ rfl
    rw [show bytesBeforeError
        [ChunkRead.data [0], ChunkRead.readErr "bad sector", ChunkRead.data [1]] = [0]
      from rfl] at h
    exact h
  · exact (sha_256_partial_read_digest none).1.mpr rfl

/-- C9: after `set_temp_file`, `temp_name` is the expected artifact hash
followed by the type-determined extension (installer hash + ".exe" for
installs, package hash + ".zip" for patches), and the other
field-writing operations of the engine (`get_manifest`,
`store_install_info`, `store_installer_id`) never change `temp_name`. -/
theorem set_temp_file_content_addressed (u u' u'' : ActiveUpdate) (releases : Releases)
    (branch : ReleaseBranch) (fetched : Except String Manifest)
    (fetchedInfo : Except BootstrapError InstallInfo) (found : Option String) :
    (u.set_temp_file.temp_name = u.get_hash ++ u.get_ext)
    ∧ (u.update_type = UpdateType.Install →
        u.set_temp_file.temp_name = u.manifest.installer.hash ++ ".exe")
    ∧ (u.update_type = UpdateType.Patch →
        u.set_temp_file.temp_name = u.manifest.package.hash ++ ".zip")
    ∧ (u.get_manifest releases branch fetched = .ok u' → u'.temp_name = u.temp_name)
    ∧ (u.store_install_info fetchedInfo = .ok u'' → u''.temp_name = u.temp_name)
    ∧ ((u.store_installer_id found).temp_name = u.temp_name) := by
  refine ⟨rfl, ?_, ?_, ?_, ?_, ?_⟩
  · intro h
    simp [ActiveUpdate.set_temp_file, ActiveUpdate.get_hash, ActiveUpdate.get_ext, h]
  · intro h
    simp [ActiveUpdate.set_temp_file, ActiveUpdate.get_hash, ActiveUpdate.get_ext, h]
  · intro h
    unfold ActiveUpdate.get_manifest at h
    split at h
    · exact absurd h (by simp)
    · cases fetched with
      | ok m =>
          simp only [Except.ok.injEq] at h
          rw [← h]
      | error e => simp at h
  · intro h
    cases fetchedInfo with
    | ok i =>
        simp only [ActiveUpdate.store_install_info, Except.ok.injEq] at h
        rw [← h]
    | error e => simp [ActiveUpdate.store_install_info] at h
  · cases found with
    | some id => rfl
    | none => rfl

/-- C9 witness: a patch update gets `temp_name = package hash + ".zip"`,
and the other operations leave it unchanged. -/
theorem set_temp_file_content_addressed_witness :
    (ActiveUpdate.set_temp_file
      ⟨UpdateType.Patch, ⟨"1.0", ⟨"u", "ABC123", ["f"]⟩, ⟨"iu", "DEF456"⟩⟩, "",
       ⟨"Rainway", "0.9", "C:\\app", ReleaseBranch.Stable, "k",
        RegistryHandle.CurrentUser, ""⟩⟩).temp_name = "ABC123" ++ ".zip" :=
  (set_temp_file_content_addressed
      ⟨UpdateType.Patch, ⟨"1.0", ⟨"u", "ABC123", ["f"]⟩, ⟨"iu", "DEF456"⟩⟩, "",
       ⟨"Rainway", "0.9", "C:\\app", ReleaseBranch.Stable, "k",
        RegistryHandle.CurrentUser, ""⟩⟩
      ⟨UpdateType.Patch, ⟨"1.0", ⟨"u", "ABC123", ["f"]⟩, ⟨"iu", "DEF456"⟩⟩, "",
       ⟨"Rainway", "0.9", "C:\\app", ReleaseBranch.Stable, "k",
        RegistryHandle.CurrentUser, ""⟩⟩
      ⟨UpdateType.Patch, ⟨"1.0", ⟨"u", "ABC123", ["f"]⟩, ⟨"iu", "DEF456"⟩⟩, "",
       ⟨"Rainway", "0.9", "C:\\app", ReleaseBranch.Stable, "k",
        RegistryHandle.CurrentUser, ""⟩⟩
      ⟨⟨"", ""⟩, ⟨"", ""⟩, ⟨"", ""⟩⟩ ReleaseBranch.Stable (Except.error "")
      (Except.error BootstrapError.SignatureMismatch) none).2.2.1 rfl

/- ## C3: `updater::verify` — how the hashes are compared -/

/-- ASCII lowercasing of one character. -/
def asciiLower (c : Char) : Char :=
  if 'A' ≤ c ∧ c ≤ 'Z' then Char.ofNat (c.toNat + 32) else c

/-- Case-insensitive string comparison.  Modelled from the spec's words
("case-insensitive hex comparison"); it exists only to compare the
claimed comparison against the one the source performs. -/
def eqIgnoreAsciiCase (a b : String) : Bool :=
  a.data.map asciiLower == b.data.map asciiLower

/-- A patch update whose manifest stores the package hash as lowercase
hex (the SHA-256 digest of the empty file). -/
def lowercaseHashUpdate : ActiveUpdate :=
  ⟨UpdateType.Patch,
   ⟨"1.0.0",
    ⟨"u", "e3b0c44298fc1c149afbf4c8996fb92427ae41e4649b934ca495991b7852b855", []⟩,
    ⟨"iu", ""⟩⟩,
   "",
   ⟨"Rainway", "1.0.0", "C:\\app", ReleaseBranch.Stable, "k",
    RegistryHandle.CurrentUser, ""⟩⟩

set_option maxRecDepth 8192 in
/-- C3 counterexample: a downloaded (empty) file whose uppercase digest
equals the manifest hash up to letter case, yet `verify` reports
`SignatureMismatch` — the comparison in the source is `==` on the hash
strings, not a case-insensitive one. -/
theorem verify_case_insensitive_counterexample :
    (∃ h, sha_256 (some []) = some h
        ∧ eqIgnoreAsciiCase h lowercaseHashUpdate.get_hash = true)
    ∧ verify (some []) lowercaseHashUpdate
        = .error BootstrapError.SignatureMismatch.toString :=
  ⟨⟨toUpperHex (sha256Bytes []), rfl, by decide⟩, by decide⟩

/-- C3 (amended): `verify` hashes the downloaded temp file with SHA-256
and compares the digest to the manifest's expected hash for the active
update type (installer hash for Install, package hash for Patch) by
exact, case-sensitive string equality; it returns `Ok` exactly when the
strings are equal, and the `SignatureMismatch` error otherwise,
including when the temp file cannot be hashed. -/
theorem verify_exact_hash_match (file : Option (List ChunkRead)) (u : ActiveUpdate) :
    (verify file u = .ok "" ↔ ∃ h, sha_256 file = some h ∧ h = u.get_hash)
    ∧ (verify file u = .ok "" ∨
        verify file u = .error BootstrapError.SignatureMismatch.toString)
    ∧ (u.update_type = UpdateType.Install → u.get_hash = u.manifest.installer.hash)
    ∧ (u.update_type = UpdateType.Patch → u.get_hash = u.manifest.package.hash) := by
  refine ⟨?_, ?_, fun h => by simp [ActiveUpdate.get_hash, h],
    fun h => by simp [ActiveUpdate.get_hash, h]⟩
  · cases hs : sha_256 file with
    | none => simp [verify, hs]
    | some lh =>
        by_cases hb : lh = u.get_hash
        · simp [verify, hs, hb]
        · simp [verify, hs, hb]
  · cases hs : sha_256 file with
    | none => simp [verify, hs]
    | some lh =>
        by_cases hb : lh = u.get_hash
        · simp [verify, hs, hb]
        · simp [verify, hs, hb]

/-- The same update as `lowercaseHashUpdate`, with the package hash in
the uppercase form `sha_256` produces. -/
def uppercaseHashUpdate : ActiveUpdate :=
  ⟨UpdateType.Patch,
   ⟨"1.0.0",
    ⟨"u", "E3B0C44298FC1C149AFBF4C8996FB92427AE41E4649B934CA495991B7852B855", []⟩,
    ⟨"iu", ""⟩⟩,
   "",
   ⟨"Rainway", "1.0.0", "C:\\app", ReleaseBranch.Stable, "k",
    RegistryHandle.CurrentUser, ""⟩⟩

/-- C3 (amended) witness: with the manifest hash in the exact uppercase
form, `verify` accepts the empty downloaded file. -/
theorem verify_exact_hash_match_witness :
    verify (some []) uppercaseHashUpdate = .ok "" :=
  (verify_exact_hash_match (some []) uppercaseHashUpdate).1.mpr
    ⟨toUpperHex (sha256Bytes []), rfl, by decide⟩

/-- C4: a `download_file` run that reaches the body-copy phase and
suffers no I/O or network error returns `Ok (written == content_length)`:
`true` exactly when the bytes written to the destination (accumulated in
the `u64` counter, which equals the plain sum whenever that sum fits in
a `u64`) equal the `Content-Length` from the HEAD request; a truncated
body therefore yields `Ok false`, not an error. -/
theorem download_file_completeness (env : DownloadEnv) (url path : String)
    (r : HeadResponse) (t : Nat)
    (hhb : env.headRequestBuild = .ok ()) (hhr : env.headResult = .ok r)
    (hst : is_success r.status = true) (hlen : total_size_of r ≠ 0)
    (hop : env.openResult = .ok ()) (hgb : env.getRequestBuild = .ok ())
    (hgr : env.getResult = .ok ()) (hcp : copyLoop env.chunks 0 = .ok t)
    (hfl : env.flushResult = .ok ()) :
    (download_file env url path).1 = .ok (t == total_size_of r)
    ∧ t = sumWrites env.chunks % w64
    ∧ (sumWrites env.chunks < w64 → t = sumWrites env.chunks)
    ∧ ((t == total_size_of r) = true ↔ t = total_size_of r) := by
  have hsum : t = sumWrites env.chunks % w64 := by
    simpa using copyLoop_ok_sum env.chunks 0 t (by decide) hcp
  refine ⟨?_, hsum, fun hlt => by rw [hsum, Nat.mod_eq_of_lt hlt], beq_iff_eq⟩
  simp [download_file, hhb, hhr, hst, hop, hgb, hgr, hcp, hfl, Nat.le_zero, hlen]

/-- A download run whose HEAD promises 10 bytes but whose body writes
only 5. -/
def truncatedEnv : DownloadEnv :=
  ⟨.ok (), .ok ⟨200, some "10"⟩, .ok (), .ok (), .ok (),
   [ChunkEvent.chunk (.ok 5)], .ok ()⟩

/-- C4 witness: the truncated download returns `Ok false`, not an error. -/
theorem download_file_completeness_witness :
    (download_file truncatedEnv "u" "t").1 = .ok (5 == total_size_of ⟨200, some "10"⟩)
    ∧ (download_file truncatedEnv "u" "t").1 = .ok false :=
  ⟨(download_file_completeness truncatedEnv "u" "t" ⟨200, some "10"⟩ 5 rfl rfl
      (by decide) (by decide) rfl rfl rfl rfl rfl).1,
   by decide⟩

/-- C6: `download_file` fails with `RemoteFileMissing url` exactly when
the HEAD request was sent and answered with a non-2xx status, and with
`RemoteFileEmpty url` exactly when the HEAD succeeded but the
`Content-Length` was absent, unparsable or zero; in both cases the
destination file has not been opened or created. -/
theorem download_file_head_errors (env : DownloadEnv) (url path : String) :
    ((download_file env url path).1 = .error (.RemoteFileMissing url) ↔
      (env.headRequestBuild = .ok () ∧
        ∃ r, env.headResult = .ok r ∧ is_success r.status = false))
    ∧ ((download_file env url path).1 = .error (.RemoteFileEmpty url) ↔
      (env.headRequestBuild = .ok () ∧
        ∃ r, env.headResult = .ok r ∧ is_success r.status = true ∧ total_size_of r = 0))
    ∧ (((download_file env url path).1 = .error (.RemoteFileMissing url) ∨
        (download_file env url path).1 = .error (.RemoteFileEmpty url)) →
        HttpEvent.openFile ∉ (download_file env url path).2) := by
  obtain ⟨hb, hr, op, gb, gr, chunks, fl⟩ := env
  cases hb with
  | error e => simp [download_file]
  | ok v =>
    cases v
    cases hr with
    | error e => simp [download_file]
    | ok r =>
      cases hs : is_success r.status with
      | false => simp [download_file, hs]
      | true =>
        by_cases hz : total_size_of r = 0
        · simp [download_file, hs, hz, Nat.le_zero]
        · cases op with
          | error e => simp [download_file, hs, hz, Nat.le_zero]
          | ok v =>
            cases v
            cases gb with
            | error e => simp [download_file, hs, hz, Nat.le_zero]
            | ok v =>
              cases v
              cases gr with
              | error e => simp [download_file, hs, hz, Nat.le_zero]
              | ok v =>
                cases v
                cases hcl : copyLoop chunks 0 with
                | error be =>
                    rcases copyLoop_error_shape chunks 0 be hcl with ⟨e, rfl⟩ | ⟨e, rfl⟩ <;>
                      simp [download_file, hs, hz, Nat.le_zero, hcl]
                | ok t =>
                    cases fl with
                    | error e => simp [download_file, hs, hz, Nat.le_zero, hcl]
                    | ok v =>
                        cases v
                        simp [download_file, hs, hz, Nat.le_zero, hcl]

/-- C6 witness: a 404 HEAD yields `RemoteFileMissing` with no file
opened; a 2xx HEAD with `Content-Length: 0` yields `RemoteFileEmpty`. -/
theorem download_file_head_errors_witness :
    (download_file ⟨.ok (), .ok ⟨404, none⟩, .ok (), .ok (), .ok (), [], .ok ()⟩ "u" "t").1
        = .error (.RemoteFileMissing "u")
    ∧ (download_file ⟨.ok (), .ok ⟨200, some "0"⟩, .ok (), .ok (), .ok (), [], .ok ()⟩ "u" "t").1
        = .error (.RemoteFileEmpty "u")
    ∧ HttpEvent.openFile ∉
        (download_file ⟨.ok (), .ok ⟨404, none⟩, .ok (), .ok (), .ok (), [], .ok ()⟩ "u" "t").2 := by
  have t1 := download_file_head_errors
    ⟨.ok (), .ok ⟨404, none⟩, .ok (), .ok (), .ok (), [], .ok ()⟩ "u" "t"
  have t2 := download_file_head_errors
    ⟨.ok (), .ok ⟨200, some "0"⟩, .ok (), .ok (), .ok (), [], .ok ()⟩ "u" "t"
  have h1 := t1.1.mpr ⟨rfl, ⟨404, none⟩, rfl, by decide⟩
  have h2 := t2.2.1.mpr ⟨rfl, ⟨200, some "0"⟩, rfl, by decide, by decide⟩
  exact ⟨h1, h2, t1.2.2 (.inl h1)⟩

/- ## C1 / C5: properties of the `apply` state machine -/

/-- The operations that modify the contents of the install path. -/
def modifiesInstall : Op → Bool
  | .removeDirAll .install => true
  | .deleteDirContents .install _ => true
  | .moveDir _ .install _ => true
  | _ => false

/-- C1: once the backup and staging steps of `apply` have succeeded, a
failure of the clear step (`delete_dir_contents` on the install path) or
of the commit step (`move_dir` from staging to the install path) makes
`apply` attempt the rollback `move_dir(backup, install, ignored_files)`
and return an `InstallationFailed` error — whatever the rollback's own
outcome, since the rollback result is not consulted; `apply` never
returns `Ok` in such a run. -/
theorem apply_rollback_then_error (env : ApplyEnv) (u : ActiveUpdate) (exe : String)
    (hexe : env.currentExe = .ok exe)
    (hsc : env.stagingExists = true → env.stagingClean = .ok ())
    (hbc : env.backupExists = true → env.backupClean = .ok ())
    (hcopy : env.copyDirResult = .ok ()) (hunzip : env.unzipResult = .ok ())
    (hfail : env.deleteResult ≠ .ok () ∨
      (env.deleteResult = .ok () ∧ env.commitMove ≠ .ok ())) :
    (∃ msg, (updater.apply env u).1
        = .error (BootstrapError.InstallationFailed msg).toString)
    ∧ Op.moveDir .backup .install (ignoredFilesFor exe) ∈ (updater.apply env u).2
    ∧ ∀ s, (updater.apply env u).1 ≠ .ok s := by
  obtain ⟨te, ce, se, sc, be, bc, cd, uz, de, cm, rb, ub, ow, pm⟩ := env
  simp only at hexe hsc hbc hcopy hunzip hfail
  subst hexe hcopy hunzip
  rcases hfail with hd | ⟨hd, hc⟩
  · cases hde : de with
    | ok v => cases v; exact absurd hde hd
    | error e =>
        subst hde
        cases se with
        | true =>
            have h1 := hsc rfl; simp only at h1; subst h1
            cases be with
            | true =>
                have h2 := hbc rfl; simp only at h2; subst h2
                exact ⟨⟨_, rfl⟩, by simp [updater.apply], fun s => by simp [updater.apply]⟩
            | false =>
                exact ⟨⟨_, rfl⟩, by simp [updater.apply], fun s => by simp [updater.apply]⟩
        | false =>
            cases be with
            | true =>
                have h2 := hbc rfl; simp only at h2; subst h2
                exact ⟨⟨_, rfl⟩, by simp [updater.apply], fun s => by simp [updater.apply]⟩
            | false =>
                exact ⟨⟨_, rfl⟩, by simp [updater.apply], fun s => by simp [updater.apply]⟩
  · subst hd
    cases hcm : cm with
    | ok v => cases v; exact absurd hcm hc
    | error e =>
        subst hcm
        cases se with
        | true =>
            have h1 := hsc rfl; simp only at h1; subst h1
            cases be with
            | true =>
                have h2 := hbc rfl; simp only at h2; subst h2
                exact ⟨⟨_, rfl⟩, by simp [updater.apply], fun s => by simp [updater.apply]⟩
            | false =>
                exact ⟨⟨_, rfl⟩, by simp [updater.apply], fun s => by simp [updater.apply]⟩
        | false =>
            cases be with
            | true =>
                have h2 := hbc rfl; simp only at h2; subst h2
                exact ⟨⟨_, rfl⟩, by simp [updater.apply], fun s => by simp [updater.apply]⟩
            | false =>
                exact ⟨⟨_, rfl⟩, by simp [updater.apply], fun s => by simp [updater.apply]⟩

/-- A concrete patch update used by the `apply` witnesses. -/
def sampleUpdate : ActiveUpdate :=
  ⟨UpdateType.Patch, ⟨"2.0.0", ⟨"u", "HASH", ["a.dll"]⟩, ⟨"iu", "IHASH"⟩⟩, "HASH.zip",
   ⟨"Rainway", "1.9.0", "C:\\Rainway", ReleaseBranch.Stable, "k",
    RegistryHandle.CurrentUser, ""⟩⟩

/-- A run whose clear step fails and whose rollback also fails. -/
def clearFailEnv : ApplyEnv :=
  ⟨"T", .ok "boot.exe", false, .ok (), false, .ok (), .ok (), .ok (),
   .error "file locked", .ok (), .error "rollback failed", true, true, true⟩

/-- C1 witness: with the clear step failing and even the rollback
failing, `apply` still attempts the rollback and reports
`InstallationFailed`, never `Ok`. -/
theorem apply_rollback_then_error_witness :
    (∃ msg, (updater.apply clearFailEnv sampleUpdate).1
        = .error (BootstrapError.InstallationFailed msg).toString)
    ∧ Op.moveDir .backup .install (ignoredFilesFor "boot.exe")
        ∈ (updater.apply clearFailEnv sampleUpdate).2
    ∧ ∀ s, (updater.apply clearFailEnv sampleUpdate).1 ≠ .ok s :=
  apply_rollback_then_error clearFailEnv sampleUpdate "boot.exe" rfl
    (fun h => Bool.noConfusion h) (fun h => Bool.noConfusion h) rfl rfl
    (.inl (by decide))

set_option maxHeartbeats 3200000 in
/-- C5: any operation that modifies the install path happens only after
both the backup copy and the staging extraction succeeded; and when the
backup or the staging step fails, `apply` returns an
`InstallationFailed` error with the install path untouched (its trace
contains no operation that modifies the install path). -/
theorem apply_backup_stage_before_destroy (env : ApplyEnv) (u : ActiveUpdate) :
    ((updater.apply env u).2.any modifiesInstall = true →
      env.copyDirResult = .ok () ∧ env.unzipResult = .ok ())
    ∧ ((env.copyDirResult ≠ .ok () ∨ env.unzipResult ≠ .ok ()) →
        (∃ msg, (updater.apply env u).1
            = .error (BootstrapError.InstallationFailed msg).toString)
        ∧ (updater.apply env u).2.all (fun op => !modifiesInstall op) = true) := by
  obtain ⟨te, ce, se, sc, be, bc, cd, uz, de, cm, rb, ub, ow, pm⟩ := env
  rcases ce with e0 | exe <;>
    rcases sc with e1 | ⟨⟨⟩⟩ <;> rcases se with _ | _ <;>
    rcases bc with e2 | ⟨⟨⟩⟩ <;> rcases be with _ | _ <;>
    rcases cd with e3 | ⟨⟨⟩⟩ <;> rcases uz with e4 | ⟨⟨⟩⟩ <;>
    rcases de with e5 | ⟨⟨⟩⟩ <;> rcases cm with e6 | ⟨⟨⟩⟩ <;>
    refine ⟨fun H => ?_, fun H => ?_⟩ <;>
    first
      | exact ⟨rfl, rfl⟩
      | exact ⟨⟨_, rfl⟩, rfl⟩
      | simp [updater.apply, modifiesInstall] at H

/-- A run whose staging extraction fails before anything destructive. -/
def stageFailEnv : ApplyEnv :=
  ⟨"T", .ok "boot.exe", false, .ok (), false, .ok (), .ok (), .error "bad zip",
   .ok (), .ok (), .ok (), true, true, true⟩

/-- C5 witness: with the unzip step failing, `apply` reports
`InstallationFailed` and its trace contains no operation modifying the
install path. -/
theorem apply_backup_stage_before_destroy_witness :
    (∃ msg, (updater.apply stageFailEnv sampleUpdate).1
        = .error (BootstrapError.InstallationFailed msg).toString)
    ∧ (updater.apply stageFailEnv sampleUpdate).2.all
        (fun op => !modifiesInstall op) = true :=
  (apply_backup_stage_before_destroy stageFailEnv sampleUpdate).2 (.inr (by decide))
